import Mathlib

/-!
Shallow embedding of `internal/store/relay_feature_store.go` from ld-relay.

The file under verification wraps an underlying LaunchDarkly feature store
(`ld.FeatureStore`, an external collaborator) and, after each successful
mutation, publishes derived SSE events to three channels (All, Flags, Ping).

Modelling choices:
* The underlying store is external, so it is modelled as a record of response
  functions (`BaseStore`): each relay method performs a fixed sequence of
  store calls, and the record supplies the store's answer to each of them.
  `get`/`all` represent the store's post-write state where the relay re-reads.
* Go maps are modelled as association lists; a `nil` Go map (which iterates
  as empty and is produced by indexing a missing key) is `Option.none`.
* Events are kept structured (the Go structs fed to `json.Marshal`), so the
  `path`, `version` and `data` fields of emitted events are plain projections.
* A publish is recorded as a `PublishCall` (the channel-routing keys passed to
  `Publish`, and the event); each relay method returns the error it returns to
  its caller together with the calls made on the three publishers.
-/

namespace LdRelay

/-- `ld.VersionedDataKind`: `ld.Features`, `ld.Segments`, or any other kind
an SDK might define (the relay only ever compares a kind against
`ld.Features` and looks it up in `dataKindApiName`). -/
inductive DataKind where
  | features
  | segments
  | other (name : String)
deriving DecidableEq, Repr

/-- Errors returned by the underlying store (opaque to the relay). -/
abbrev Err := String

/-- `ld.VersionedData`: a keyed, versioned record; `payload` stands for the
kind-specific fields that the relay never inspects. -/
structure VersionedData where
  key : String
  version : Int
  deleted : Bool
  payload : String
deriving DecidableEq, Repr

/-- A Go `map[string]ld.VersionedData`, as its list of entries. -/
abbrev FlagMap := List (String × VersionedData)

/-- A Go `map[ld.VersionedDataKind]map[string]ld.VersionedData`. -/
abbrev AllData := List (DataKind × FlagMap)

/-- Go map indexing `allData[kind]`: `none` models the `nil` map returned
when the kind is absent. -/
def lookupKind : AllData → DataKind → Option FlagMap
  | [], _ => none
  | (k, m) :: rest, kind => if k = kind then some m else lookupKind rest kind

/-- Iterating a Go map with `range`: a `nil` map iterates as empty.  Copying
each visited entry into an initially-empty map (as `makePutEvent` does)
yields exactly the source entries. -/
def goMapRange : Option FlagMap → FlagMap
  | none => []
  | some m => m

/-- `dataKindApiName`: the fixed map from kind to external path-name; Go map
indexing of a kind outside the map yields the zero value `""`. -/
def dataKindApiName : DataKind → String
  | .features => "flags"
  | .segments => "segments"
  | .other _ => ""

/-- Go struct `upsertEvent` (`Event() = "patch"`). -/
structure upsertEvent where
  path : String
  d : VersionedData
deriving DecidableEq, Repr

/-- Go struct `deleteEvent` (`Event() = "delete"`). -/
structure deleteEvent where
  path : String
  version : Int
deriving DecidableEq, Repr

/-- Go struct `allPutEvent` (`Event() = "put"`): payload `{"data": {...}}`,
a map from kind path-name to that kind's entries. -/
structure allPutEvent where
  d : List (String × FlagMap)
deriving DecidableEq, Repr

/-- An `es.Event` produced by this file: one of the five concrete event
shapes (`flagsPut` carries a possibly-`nil` flat map, `ping` a sentinel). -/
inductive Event where
  | put (e : allPutEvent)
  | flagsPut (flags : Option FlagMap)
  | patch (e : upsertEvent)
  | del (e : deleteEvent)
  | ping
deriving DecidableEq, Repr

/-- The `Event()` type tag of each event shape, from the Go methods. -/
def Event.eventType : Event → String
  | .put _ => "put"
  | .flagsPut _ => "put"
  | .patch _ => "patch"
  | .del _ => "delete"
  | .ping => "ping"

/-- The `path` field of a patch or delete event. -/
def Event.eventPath : Event → Option String
  | .patch e => some e.path
  | .del e => some e.path
  | _ => none

/-- The `data` field of a patch (upsert) event. -/
def Event.upsertData : Event → Option VersionedData
  | .patch e => some e.d
  | _ => none

/-- The `version` field of a delete event. -/
def Event.deleteVersion : Event → Option Int
  | .del e => some e.version
  | _ => none

/-- The `{"data": ...}` payload of an all-channel put event. -/
def Event.putPayload : Event → Option (List (String × FlagMap))
  | .put e => some e.d
  | _ => none

/-- `makeUpsertEvent`. -/
def makeUpsertEvent (kind : DataKind) (item : VersionedData) : Event :=
  .patch ⟨"/" ++ dataKindApiName kind ++ "/" ++ item.key, item⟩

/-- `makeFlagsUpsertEvent`. -/
def makeFlagsUpsertEvent (item : VersionedData) : Event :=
  .patch ⟨"/" ++ item.key, item⟩

/-- `makeDeleteEvent`. -/
def makeDeleteEvent (kind : DataKind) (key : String) (version : Int) : Event :=
  .del ⟨"/" ++ dataKindApiName kind ++ "/" ++ key, version⟩

/-- `makeFlagsDeleteEvent`. -/
def makeFlagsDeleteEvent (key : String) (version : Int) : Event :=
  .del ⟨"/" ++ key, version⟩

/-- `makePutEvent`: starts from `{"flags": {}, "segments": {}}` and copies in
the entries of each argument map (either of which may be `nil`). -/
def makePutEvent (flags : Option FlagMap) (segments : Option FlagMap) : Event :=
  .put ⟨[("flags", goMapRange flags), ("segments", goMapRange segments)]⟩

/-- `makeFlagsPutEvent`: the flat map itself (kept `nil` when `nil`). -/
def makeFlagsPutEvent (flags : Option FlagMap) : Event :=
  .flagsPut flags

/-- `makePingEvent`. -/
def makePingEvent : Event :=
  .ping

/-- The underlying `ld.FeatureStore` (external collaborator), as the answers
it gives to the calls the relay makes: `initErr`/`upsertErr`/`deleteErr` are
the errors returned by its writes (`none` = success), `get`/`all` answer the
relay's reads of its post-write state, `initialized` its `Initialized()`. -/
structure BaseStore where
  initErr : AllData → Option Err
  upsertErr : DataKind → VersionedData → Option Err
  deleteErr : DataKind → String → Int → Option Err
  get : DataKind → String → Except Err (Option VersionedData)
  all : DataKind → Except Err (Option FlagMap)
  initialized : Bool

/-- One `Publish(channels, event)` call on a publisher. -/
structure PublishCall where
  channels : List String
  event : Event
deriving DecidableEq, Repr

/-- The publish calls a relay method makes, per channel publisher. -/
structure Published where
  allEvents : List PublishCall
  flagsEvents : List PublishCall
  pingEvents : List PublishCall
deriving DecidableEq, Repr

/-- No publish call on any of the three publishers. -/
def noEvents : Published :=
  ⟨[], [], []⟩

/-- `SSERelayFeatureStore`: the wrapped store and the credential used as the
routing key (the publishers themselves are the recorded output). -/
structure SSERelayFeatureStore where
  store : BaseStore
  apiKey : String

/-- `relay.keys()`. -/
def SSERelayFeatureStore.keys (relay : SSERelayFeatureStore) : List String :=
  [relay.apiKey]

/-- `Get`: pass-through read. -/
def SSERelayFeatureStore.Get (relay : SSERelayFeatureStore) (kind : DataKind)
    (key : String) : Except Err (Option VersionedData) :=
  relay.store.get kind key

/-- `All`: pass-through read. -/
def SSERelayFeatureStore.All (relay : SSERelayFeatureStore) (kind : DataKind) :
    Except Err (Option FlagMap) :=
  relay.store.all kind

/-- `Initialized`: pass-through. -/
def SSERelayFeatureStore.Initialized (relay : SSERelayFeatureStore) : Bool :=
  relay.store.initialized

/-- `Init`: underlying write, then on success a put on All (flags and
segments kinds), a flags-only put on Flags, and a ping. -/
def SSERelayFeatureStore.Init (relay : SSERelayFeatureStore) (allData : AllData) :
    Option Err × Published :=
  match relay.store.initErr allData with
  | some e => (some e, noEvents)
  | none =>
    (none,
      { allEvents := [⟨relay.keys,
          makePutEvent (lookupKind allData .features) (lookupKind allData .segments)⟩]
        flagsEvents := [⟨relay.keys, makeFlagsPutEvent (lookupKind allData .features)⟩]
        pingEvents := [⟨relay.keys, makePingEvent⟩] })

/-- `Delete`: underlying write, then on success a delete event on All, on
Flags only for `ld.Features`, and a ping. -/
def SSERelayFeatureStore.Delete (relay : SSERelayFeatureStore) (kind : DataKind)
    (key : String) (version : Int) : Option Err × Published :=
  match relay.store.deleteErr kind key version with
  | some e => (some e, noEvents)
  | none =>
    (none,
      { allEvents := [⟨relay.keys, makeDeleteEvent kind key version⟩]
        flagsEvents :=
          if kind = .features then [⟨relay.keys, makeFlagsDeleteEvent key version⟩] else []
        pingEvents := [⟨relay.keys, makePingEvent⟩] })

/-- `Upsert`: underlying write; on success re-read the item (`Get`), return
the read error if the read fails; publish (upsert on All, on Flags only for
`ld.Features`, plus a ping) only when the re-read item is non-nil. -/
def SSERelayFeatureStore.Upsert (relay : SSERelayFeatureStore) (kind : DataKind)
    (item : VersionedData) : Option Err × Published :=
  match relay.store.upsertErr kind item with
  | some e => (some e, noEvents)
  | none =>
    match relay.store.get kind item.key with
    | .error e => (some e, noEvents)
    | .ok none => (none, noEvents)
    | .ok (some newItem) =>
      (none,
        { allEvents := [⟨relay.keys, makeUpsertEvent kind newItem⟩]
          flagsEvents :=
            if kind = .features then [⟨relay.keys, makeFlagsUpsertEvent newItem⟩] else []
          pingEvents := [⟨relay.keys, makePingEvent⟩] })

/-- `flagsRepository.Replay`: the events sent on `out` before it closes. -/
def flagsRepositoryReplay (relay : SSERelayFeatureStore) : List Event :=
  if relay.Initialized then
    match relay.All .features with
    | .error _ => []
    | .ok flags => [makeFlagsPutEvent flags]
  else []

/-- `allRepository.Replay`: the events sent on `out` before it closes. -/
def allRepositoryReplay (relay : SSERelayFeatureStore) : List Event :=
  if relay.Initialized then
    match relay.All .features with
    | .error _ => []
    | .ok flags =>
      match relay.All .segments with
      | .error _ => []
      | .ok segments => [makePutEvent flags segments]
  else []

/-- `pingRepository.Replay`: the events sent on `out` before it closes. -/
def pingRepositoryReplay (_relay : SSERelayFeatureStore) : List Event :=
  [makePingEvent]

/-- One `PublishComment(channels, text)` call on a publisher. -/
structure CommentCall where
  channels : List String
  text : String
deriving DecidableEq, Repr

/-- `heartbeat`: an empty comment on the All, Flags and Ping publishers. -/
def SSERelayFeatureStore.heartbeat (relay : SSERelayFeatureStore) :
    CommentCall × CommentCall × CommentCall :=
  (⟨relay.keys, ""⟩, ⟨relay.keys, ""⟩, ⟨relay.keys, ""⟩)

/-- The guard in `NewSSERelayFeatureStore` that starts the heartbeat
goroutine: `heartbeatInterval > 0`. -/
def heartbeatLoopStarted (heartbeatInterval : Int) : Bool :=
  heartbeatInterval > 0

/-- The heartbeat loop body unrolled: the heartbeats emitted once the loop
has started and `ticks` ticker ticks have been received (the loop calls
`heartbeat()` first and only then waits on the ticker). -/
def heartbeatRun (relay : SSERelayFeatureStore) :
    Nat → List (CommentCall × CommentCall × CommentCall)
  | 0 => [relay.heartbeat]
  | n + 1 => heartbeatRun relay n ++ [relay.heartbeat]

/-- `NewSSERelayFeatureStore`: the constructed relay, paired with whether the
heartbeat goroutine was started. -/
def NewSSERelayFeatureStore (apiKey : String) (baseFeatureStore : BaseStore)
    (heartbeatInterval : Int) : SSERelayFeatureStore × Bool :=
  (⟨baseFeatureStore, apiKey⟩, heartbeatLoopStarted heartbeatInterval)

/-! Concrete stores used to instantiate the theorems below. -/

/-- A sample versioned item. -/
def vd1 : VersionedData :=
  ⟨"f1", 2, false, "x"⟩

/-- A store whose every write fails with `"werr"`. -/
def relayFail : SSERelayFeatureStore :=
  { store :=
      { initErr := fun _ => some "werr"
        upsertErr := fun _ _ => some "werr"
        deleteErr := fun _ _ _ => some "werr"
        get := fun _ _ => .ok none
        all := fun _ => .ok none
        initialized := false }
    apiKey := "sdk-key" }

/-- A store whose writes succeed and whose reads return `vd1`. -/
def relayOk : SSERelayFeatureStore :=
  { store :=
      { initErr := fun _ => none
        upsertErr := fun _ _ => none
        deleteErr := fun _ _ _ => none
        get := fun _ _ => .ok (some vd1)
        all := fun _ => .ok (some [("f1", vd1)])
        initialized := true }
    apiKey := "sdk-key" }

/-- A store whose writes succeed but whose post-write read finds no item
(the store silently rejected a stale version). -/
def relayNoItem : SSERelayFeatureStore :=
  { store :=
      { initErr := fun _ => none
        upsertErr := fun _ _ => none
        deleteErr := fun _ _ _ => none
        get := fun _ _ => .ok none
        all := fun _ => .ok none
        initialized := true }
    apiKey := "sdk-key" }

/-- A store whose writes succeed but whose reads fail with `"rderr"`. -/
def relayReadFail : SSERelayFeatureStore :=
  { store :=
      { initErr := fun _ => none
        upsertErr := fun _ _ => none
        deleteErr := fun _ _ _ => none
        get := fun _ _ => .error "rderr"
        all := fun _ => .error "rderr"
        initialized := true }
    apiKey := "sdk-key" }

/-- A store that accepts a delete but still reports version 5 for key
`"k"` afterwards (the tombstoning write was a silent no-op on a stale
version). -/
def relayStale : SSERelayFeatureStore :=
  { store :=
      { initErr := fun _ => none
        upsertErr := fun _ _ => none
        deleteErr := fun _ _ _ => none
        get := fun _ _ => .ok (some ⟨"k", 5, false, ""⟩)
        all := fun _ => .ok none
        initialized := true }
    apiKey := "sdk-key" }

/-- An uninitialized store with data (for replay). -/
def relayUninit : SSERelayFeatureStore :=
  { store :=
      { initErr := fun _ => none
        upsertErr := fun _ _ => none
        deleteErr := fun _ _ _ => none
        get := fun _ _ => .ok (some vd1)
        all := fun _ => .ok (some [("f1", vd1)])
        initialized := false }
    apiKey := "sdk-key" }

/-! Claim theorems. -/

/-- Claim C1: for every `Init`, `Upsert` or `Delete` call in which the
underlying store's write returns an error, the operation returns that error
to the caller and publishes zero events on the All, Flags and Ping
channels. -/
theorem write_error_returns_error_and_publishes_nothing
    (relay : SSERelayFeatureStore) (allData : AllData) (kind : DataKind)
    (item : VersionedData) (key : String) (version : Int) (e : Err) :
    (relay.store.initErr allData = some e →
      relay.Init allData = (some e, noEvents)) ∧
    (relay.store.upsertErr kind item = some e →
      relay.Upsert kind item = (some e, noEvents)) ∧
    (relay.store.deleteErr kind key version = some e →
      relay.Delete kind key version = (some e, noEvents)) := by
  refine ⟨fun h => ?_, fun h => ?_, fun h => ?_⟩
  · simp [SSERelayFeatureStore.Init, h]
  · simp [SSERelayFeatureStore.Upsert, h]
  · simp [SSERelayFeatureStore.Delete, h]

/-- Witness for C1 at a concrete failing store. -/
theorem write_error_returns_error_and_publishes_nothing_witness :
    relayFail.Init [] = (some "werr", noEvents) ∧
    relayFail.Upsert .features vd1 = (some "werr", noEvents) ∧
    relayFail.Delete .features "f1" 3 = (some "werr", noEvents) := by
  obtain ⟨h1, h2, h3⟩ :=
    write_error_returns_error_and_publishes_nothing relayFail [] .features vd1 "f1" 3 "werr"
  exact ⟨h1 rfl, h2 rfl, h3 rfl⟩

/-- Claim C2: for every `Upsert` whose underlying write succeeds, the item is
re-read and an upsert event carrying the re-read item is published iff the
re-read returns a non-empty item; it goes to All always, to Flags only for
the flag kind, with a ping to Ping, and its data equals what a subsequent
`Get(kind, key)` returns. -/
theorem upsert_publishes_exactly_reread_item
    (relay : SSERelayFeatureStore) (kind : DataKind) (item : VersionedData)
    (hw : relay.store.upsertErr kind item = none) :
    ((relay.Upsert kind item).2 ≠ noEvents ↔
      ∃ v, relay.store.get kind item.key = .ok (some v)) ∧
    ∀ v, relay.store.get kind item.key = .ok (some v) →
      relay.Upsert kind item = (none,
        { allEvents := [⟨relay.keys, makeUpsertEvent kind v⟩]
          flagsEvents :=
            if kind = .features then [⟨relay.keys, makeFlagsUpsertEvent v⟩] else []
          pingEvents := [⟨relay.keys, makePingEvent⟩] }) ∧
      Event.upsertData (makeUpsertEvent kind v) = some v ∧
      relay.Get kind item.key = .ok (some v) := by
  constructor
  · constructor
    · intro hne
      cases hg : relay.store.get kind item.key with
      | error e => simp [SSERelayFeatureStore.Upsert, hw, hg] at hne
      | ok o =>
        cases o with
        | none => simp [SSERelayFeatureStore.Upsert, hw, hg] at hne
        | some v => exact ⟨v, rfl⟩
    · rintro ⟨v, hv⟩
      simp [SSERelayFeatureStore.Upsert, hw, hv, noEvents]
  · intro v hv
    refine ⟨?_, rfl, ?_⟩
    · simp [SSERelayFeatureStore.Upsert, hw, hv]
    · simpa [SSERelayFeatureStore.Get] using hv

/-- Witness for C2 at a concrete succeeding store. -/
theorem upsert_publishes_exactly_reread_item_witness :
    relayOk.Upsert .features vd1 =
      (none,
        ⟨[⟨["sdk-key"], makeUpsertEvent .features vd1⟩],
          [⟨["sdk-key"], makeFlagsUpsertEvent vd1⟩],
          [⟨["sdk-key"], makePingEvent⟩]⟩) ∧
    Event.upsertData (makeUpsertEvent .features vd1) = some vd1 ∧
    relayOk.Get .features "f1" = .ok (some vd1) := by
  obtain ⟨-, h⟩ := upsert_publishes_exactly_reread_item relayOk .features vd1 rfl
  obtain ⟨ha, hb, hc⟩ := h vd1 rfl
  exact ⟨by simpa [relayOk, SSERelayFeatureStore.keys] using ha, hb, hc⟩

/-- Claim C7: upsert and delete events are emitted with path
`/<kind-path>/<key>` on the All channel (kind-path `flags` for the flag
kind, `segments` for the segment kind) and bare `/<key>` on the Flags
channel. -/
theorem event_paths_deterministic (item : VersionedData) (key : String)
    (version : Int) :
    Event.eventPath (makeUpsertEvent .features item) = some ("/flags/" ++ item.key) ∧
    Event.eventPath (makeUpsertEvent .segments item) = some ("/segments/" ++ item.key) ∧
    Event.eventPath (makeFlagsUpsertEvent item) = some ("/" ++ item.key) ∧
    Event.eventPath (makeDeleteEvent .features key version) = some ("/flags/" ++ key) ∧
    Event.eventPath (makeDeleteEvent .segments key version) = some ("/segments/" ++ key) ∧
    Event.eventPath (makeFlagsDeleteEvent key version) = some ("/" ++ key) ∧
    dataKindApiName .features = "flags" ∧ dataKindApiName .segments = "segments" :=
  ⟨rfl, rfl, rfl, rfl, rfl, rfl, rfl, rfl⟩

/-- Counterexample to claim C3: an `Upsert` whose write succeeds but whose
post-write re-read finds no item returns success and publishes zero Ping
events, not exactly one. -/
theorem silent_noop_upsert_returns_success_without_ping :
    (relayNoItem.Upsert .features vd1).1 = none ∧
    (relayNoItem.Upsert .features vd1).2.pingEvents = [] :=
  ⟨rfl, rfl⟩

/-- Claim C3 (amended): successful `Init` and `Delete` publish exactly one
Ping event, and so does a successful `Upsert` whose post-write re-read
returns a non-empty item; a successful `Upsert` whose re-read returns no
item publishes no Ping event. -/
theorem ping_published_once_on_publishing_success
    (relay : SSERelayFeatureStore) (allData : AllData) (kind : DataKind)
    (item : VersionedData) (key : String) (version : Int) (v : VersionedData) :
    (relay.store.initErr allData = none →
      (relay.Init allData).2.pingEvents = [⟨relay.keys, makePingEvent⟩]) ∧
    (relay.store.deleteErr kind key version = none →
      (relay.Delete kind key version).2.pingEvents = [⟨relay.keys, makePingEvent⟩]) ∧
    (relay.store.upsertErr kind item = none →
      relay.store.get kind item.key = .ok (some v) →
      (relay.Upsert kind item).2.pingEvents = [⟨relay.keys, makePingEvent⟩]) ∧
    (relay.store.upsertErr kind item = none →
      relay.store.get kind item.key = .ok none →
      (relay.Upsert kind item).1 = none ∧
      (relay.Upsert kind item).2.pingEvents = []) := by
  refine ⟨fun h => ?_, fun h => ?_, fun h hg => ?_, fun h hg => ?_⟩
  · simp [SSERelayFeatureStore.Init, h]
  · simp [SSERelayFeatureStore.Delete, h]
  · simp [SSERelayFeatureStore.Upsert, h, hg]
  · simp [SSERelayFeatureStore.Upsert, h, hg, noEvents]

/-- Witness for amended C3 at concrete stores. -/
theorem ping_published_once_on_publishing_success_witness :
    (relayOk.Init []).2.pingEvents = [⟨["sdk-key"], makePingEvent⟩] ∧
    (relayOk.Delete .features "f1" 3).2.pingEvents = [⟨["sdk-key"], makePingEvent⟩] ∧
    (relayOk.Upsert .features vd1).2.pingEvents = [⟨["sdk-key"], makePingEvent⟩] ∧
    (relayNoItem.Upsert .features vd1).1 = none ∧
    (relayNoItem.Upsert .features vd1).2.pingEvents = [] := by
  obtain ⟨h1, h2, h3, -⟩ :=
    ping_published_once_on_publishing_success relayOk [] .features vd1 "f1" 3 vd1
  obtain ⟨-, -, -, h4⟩ :=
    ping_published_once_on_publishing_success relayNoItem [] .features vd1 "f1" 3 vd1
  exact ⟨h1 rfl, h2 rfl, h3 rfl rfl, h4 rfl rfl⟩

/-- Counterexample to claim C4: when the post-write re-read fails, `Upsert`
does not return success — it returns the read error, even though the
underlying write succeeded (so the write error is not the only error it
ever returns). -/
theorem upsert_returns_post_write_read_error :
    relayReadFail.store.upsertErr .features vd1 = none ∧
    relayReadFail.Upsert .features vd1 = (some "rderr", noEvents) :=
  ⟨rfl, rfl⟩

/-- Claim C4 (amended): `Upsert` returns the underlying store's write error
when the write fails; when the write succeeds but the post-write re-read
fails, `Upsert` returns that read error to the caller and skips the publish
(the already-applied write is not rolled back). -/
theorem upsert_error_propagation (relay : SSERelayFeatureStore)
    (kind : DataKind) (item : VersionedData) (e : Err) :
    (relay.store.upsertErr kind item = some e →
      relay.Upsert kind item = (some e, noEvents)) ∧
    (relay.store.upsertErr kind item = none →
      relay.store.get kind item.key = .error e →
      relay.Upsert kind item = (some e, noEvents)) := by
  refine ⟨fun h => ?_, fun h hg => ?_⟩
  · simp [SSERelayFeatureStore.Upsert, h]
  · simp [SSERelayFeatureStore.Upsert, h, hg]

/-- Witness for amended C4 at concrete stores. -/
theorem upsert_error_propagation_witness :
    relayFail.Upsert .segments vd1 = (some "werr", noEvents) ∧
    relayReadFail.Upsert .segments vd1 = (some "rderr", noEvents) := by
  obtain ⟨h1, -⟩ := upsert_error_propagation relayFail .segments vd1 "werr"
  obtain ⟨-, h2⟩ := upsert_error_propagation relayReadFail .segments vd1 "rderr"
  exact ⟨h1 rfl, h2 rfl rfl⟩

/-- Counterexample to claim C5: a delete the store accepts without error but
applies as a silent no-op (stale version) emits an event whose `version` is
the caller's argument (3), while the store afterwards reports version 5 for
that key. -/
theorem delete_event_version_not_store_version :
    (relayStale.Delete .features "k" 3).1 = none ∧
    (relayStale.Delete .features "k" 3).2.allEvents =
      [⟨["sdk-key"], Event.del ⟨"/flags/k", 3⟩⟩] ∧
    relayStale.Get .features "k" = .ok (some ⟨"k", 5, false, ""⟩) ∧
    Event.deleteVersion (Event.del ⟨"/flags/k", 3⟩) = some 3 ∧
    (3 : Int) ≠ 5 :=
  ⟨rfl, rfl, rfl, rfl, by decide⟩

/-- Claim C5 (amended): the delete event published on the All and Flags
channels carries a `version` field equal to the version argument supplied
by the caller; the store's post-delete state is not consulted. -/
theorem delete_event_version_is_caller_version (relay : SSERelayFeatureStore)
    (kind : DataKind) (key : String) (version : Int)
    (h : relay.store.deleteErr kind key version = none) :
    (relay.Delete kind key version).2.allEvents =
      [⟨relay.keys, makeDeleteEvent kind key version⟩] ∧
    (relay.Delete kind key version).2.flagsEvents =
      (if kind = .features then [⟨relay.keys, makeFlagsDeleteEvent key version⟩] else []) ∧
    Event.deleteVersion (makeDeleteEvent kind key version) = some version ∧
    Event.deleteVersion (makeFlagsDeleteEvent key version) = some version := by
  refine ⟨?_, ?_, rfl, rfl⟩ <;> simp [SSERelayFeatureStore.Delete, h]

/-- Witness for amended C5 at a concrete store. -/
theorem delete_event_version_is_caller_version_witness :
    (relayOk.Delete .features "f1" 3).2.allEvents =
      [⟨["sdk-key"], makeDeleteEvent .features "f1" 3⟩] ∧
    (relayOk.Delete .features "f1" 3).2.flagsEvents =
      [⟨["sdk-key"], makeFlagsDeleteEvent "f1" 3⟩] ∧
    Event.deleteVersion (makeDeleteEvent .features "f1" 3) = some 3 ∧
    Event.deleteVersion (makeFlagsDeleteEvent "f1" 3) = some 3 := by
  obtain ⟨h1, h2, h3, h4⟩ :=
    delete_event_version_is_caller_version relayOk .features "f1" 3 rfl
  exact ⟨h1, by simpa using h2, h3, h4⟩

/-- Counterexample to claim C6: a successful `Upsert` of the flag kind whose
post-write re-read returns no item publishes no event on the All channel
(nor on Flags or Ping), contradicting an All-channel event for every
successful Upsert. -/
theorem silent_noop_upsert_publishes_no_event :
    (relayNoItem.Upsert .features vd1).1 = none ∧
    (relayNoItem.Upsert .features vd1).2.allEvents = [] ∧
    (relayNoItem.Upsert .features vd1).2 = noEvents :=
  ⟨rfl, rfl, rfl⟩

/-- Claim C6 (amended): for every successful `Delete`, and every successful
`Upsert` whose post-write re-read returns a non-empty item: an event is
published on the All channel, an event reaches the Flags channel iff the
kind is the flag kind, and a ping reaches the Ping channel; a successful
`Upsert` whose re-read returns no item publishes on no channel. -/
theorem channel_routing_by_kind (relay : SSERelayFeatureStore)
    (kind : DataKind) (item : VersionedData) (key : String) (version : Int)
    (v : VersionedData) :
    (relay.store.deleteErr kind key version = none →
      (relay.Delete kind key version).2.allEvents ≠ [] ∧
      ((relay.Delete kind key version).2.flagsEvents ≠ [] ↔ kind = .features) ∧
      (relay.Delete kind key version).2.pingEvents ≠ []) ∧
    (relay.store.upsertErr kind item = none →
      relay.store.get kind item.key = .ok (some v) →
      (relay.Upsert kind item).2.allEvents ≠ [] ∧
      ((relay.Upsert kind item).2.flagsEvents ≠ [] ↔ kind = .features) ∧
      (relay.Upsert kind item).2.pingEvents ≠ []) ∧
    (relay.store.upsertErr kind item = none →
      relay.store.get kind item.key = .ok none →
      (relay.Upsert kind item).2 = noEvents) := by
  refine ⟨fun h => ?_, fun h hg => ?_, fun h hg => ?_⟩
  · by_cases hk : kind = .features
    · subst hk; simp [SSERelayFeatureStore.Delete, h]
    · simp [SSERelayFeatureStore.Delete, h, hk]
  · by_cases hk : kind = .features
    · subst hk; simp [SSERelayFeatureStore.Upsert, h, hg]
    · simp [SSERelayFeatureStore.Upsert, h, hg, hk]
  · simp [SSERelayFeatureStore.Upsert, h, hg, noEvents]

/-- Witness for amended C6 at concrete stores and both kinds. -/
theorem channel_routing_by_kind_witness :
    (relayOk.Delete .features "f1" 3).2.allEvents ≠ [] ∧
    ((relayOk.Delete .features "f1" 3).2.flagsEvents ≠ [] ↔
      DataKind.features = .features) ∧
    (relayOk.Delete .features "f1" 3).2.pingEvents ≠ [] ∧
    ((relayOk.Delete .segments "f1" 3).2.flagsEvents ≠ [] ↔
      DataKind.segments = .features) ∧
    (relayOk.Upsert .segments vd1).2.allEvents ≠ [] ∧
    (relayNoItem.Upsert .segments vd1).2 = noEvents := by
  obtain ⟨hd, -, -⟩ :=
    channel_routing_by_kind relayOk .features vd1 "f1" 3 vd1
  obtain ⟨hd2, -, -⟩ :=
    channel_routing_by_kind relayOk .segments vd1 "f1" 3 vd1
  obtain ⟨-, hu, hn⟩ :=
    channel_routing_by_kind relayNoItem .segments vd1 "f1" 3 vd1
  obtain ⟨-, hu2, -⟩ :=
    channel_routing_by_kind relayOk .segments vd1 "f1" 3 vd1
  obtain ⟨ha, hf, hp⟩ := hd rfl
  obtain ⟨-, hf2, -⟩ := hd2 rfl
  obtain ⟨ha2, -, -⟩ := hu2 rfl rfl
  exact ⟨ha, hf, hp, hf2, ha2, hn rfl rfl⟩

/-- Claim C8: a replay while the store is not yet initialized emits zero
events from the Flags and All repositories before their output closes,
while the Ping repository emits exactly one Ping event regardless of
initialization state. -/
theorem replay_before_first_init (relay : SSERelayFeatureStore)
    (h : relay.Initialized = false) :
    flagsRepositoryReplay relay = [] ∧
    allRepositoryReplay relay = [] ∧
    pingRepositoryReplay relay = [makePingEvent] ∧
    Event.eventType makePingEvent = "ping" ∧
    (∀ r2 : SSERelayFeatureStore, pingRepositoryReplay r2 = [makePingEvent]) := by
  refine ⟨?_, ?_, rfl, rfl, fun _ => rfl⟩
  · simp [flagsRepositoryReplay, h]
  · simp [allRepositoryReplay, h]

/-- Witness for C8 at a concrete uninitialized store. -/
theorem replay_before_first_init_witness :
    flagsRepositoryReplay relayUninit = [] ∧
    allRepositoryReplay relayUninit = [] ∧
    pingRepositoryReplay relayUninit = [makePingEvent] := by
  obtain ⟨h1, h2, h3, -, -⟩ := replay_before_first_init relayUninit rfl
  exact ⟨h1, h2, h3⟩

/-- Claim C9: the heartbeat loop is started iff the configured interval is
positive, and when started the first heartbeat — an empty comment published
on all three channels' publishers under the credential routing key — is
emitted at loop start, with zero ticker ticks elapsed; each subsequent tick
adds one more. -/
theorem heartbeat_started_iff_positive_and_first_immediate
    (apiKey : String) (baseFeatureStore : BaseStore) (heartbeatInterval : Int)
    (relay : SSERelayFeatureStore) :
    ((NewSSERelayFeatureStore apiKey baseFeatureStore heartbeatInterval).2 = true ↔
      0 < heartbeatInterval) ∧
    heartbeatRun relay 0 = [relay.heartbeat] ∧
    (∀ n, heartbeatRun relay (n + 1) = heartbeatRun relay n ++ [relay.heartbeat]) ∧
    relay.heartbeat =
      (⟨[relay.apiKey], ""⟩, ⟨[relay.apiKey], ""⟩, ⟨[relay.apiKey], ""⟩) := by
  refine ⟨?_, rfl, fun n => rfl, rfl⟩
  simp [NewSSERelayFeatureStore, heartbeatLoopStarted]

/-- Claim C10: the All-channel put event's payload holds exactly the keys
`"flags"` and `"segments"`, each mapping to exactly the entries of the
corresponding input map (a missing kind in `Init`'s input yields an empty
object, never a null or an absent key; other kinds are not carried over). -/
theorem init_put_event_payload_exact (relay : SSERelayFeatureStore)
    (allData : AllData) (f s : Option FlagMap) :
    (relay.store.initErr allData = none →
      (relay.Init allData).2.allEvents =
        [⟨relay.keys,
          makePutEvent (lookupKind allData .features) (lookupKind allData .segments)⟩]) ∧
    (Event.putPayload (makePutEvent f s)).map (List.map Prod.fst) =
      some ["flags", "segments"] ∧
    Event.putPayload (makePutEvent f s) =
      some [("flags", goMapRange f), ("segments", goMapRange s)] ∧
    goMapRange none = [] ∧
    (∀ m : FlagMap, goMapRange (some m) = m) := by
  refine ⟨fun h => ?_, rfl, rfl, rfl, fun m => rfl⟩
  simp [SSERelayFeatureStore.Init, h]

/-- Input to the C10 witness: flags present, segments missing, and an
unrelated kind that must not appear in the event. -/
def wAllData : AllData :=
  [(.features, [("f1", vd1)]), (.other "users", [("u", vd1)])]

/-- Witness for C10 at a concrete input with a missing kind and an extra
kind. -/
theorem init_put_event_payload_exact_witness :
    (relayOk.Init wAllData).2.allEvents =
      [⟨["sdk-key"], Event.put ⟨[("flags", [("f1", vd1)]), ("segments", [])]⟩⟩] ∧
    (Event.putPayload (makePutEvent (some [("f1", vd1)]) none)).map (List.map Prod.fst) =
      some ["flags", "segments"] ∧
    Event.putPayload (makePutEvent (some [("f1", vd1)]) none) =
      some [("flags", [("f1", vd1)]), ("segments", [])] := by
  obtain ⟨h1, h2, h3, -, -⟩ :=
    init_put_event_payload_exact relayOk wAllData (some [("f1", vd1)]) none
  exact ⟨h1 rfl, h2, h3⟩

end LdRelay
